import Mathlib

/-!
Verification of the wepppyo3 raster-characteristics wrapper and of the
spec-level model of its native engine and of the sibling geospatial
interpolation boundary.

The Python wrapper `wepppyo3/raster_characteristics/__init__.py` is embedded
directly.  The native extension (`raster_characteristics_rust`) and the
`interpolate_geospatial` routine are not part of the visible sources; where a
claim depends on them they are modelled from the specification, and each such
definition says so in its doc comment.
-/

namespace Wepppyo3

/-! ## Python wrapper layer (embedded from
`src/release/linux/py310/wepppyo3/raster_characteristics/__init__.py`) -/

/-- A Python exception as far as this module raises them: `ValueError` with a
message (the spec's ValidationError). -/
inductive PyErr where
  | valueError (msg : String)
deriving DecidableEq

/-- The f-string message of `_handle_common_args`:
`f"band_indx must be >= 1. Got {band_indx} instead."`. -/
def bandIndxMsg (band_indx : ℤ) : String :=
  "band_indx must be >= 1. Got " ++ toString band_indx ++ " instead."

/-- Embedding of `_handle_common_args`: validate `band_indx`, then default a
`None` ignore set to the empty set. -/
def handle_common_args (ignore_keys : Option (Finset ℤ)) (band_indx : ℤ) :
    Except PyErr (Finset ℤ) :=
  if band_indx < 1 then .error (.valueError (bandIndxMsg band_indx))
  else .ok (ignore_keys.getD ∅)

/-- A native backend taking the single-key-raster argument list.  The
`List String` component is the trace of raster files the backend opened, so
that "no raster access happened" is expressible as an empty trace. -/
def BackendSingle (α : Type) : Type :=
  String → String → Bool → Finset ℤ → ℤ → List String × Except PyErr α

/-- A native backend taking the intersecting-key-rasters argument list. -/
def BackendInter (α : Type) : Type :=
  String → String → String → Bool → Finset ℤ → Finset ℤ → ℤ →
    List String × Except PyErr α

variable {α : Type}

/-- Embedding of the Python wrapper `identify_mode_single_raster_key`,
parameterized by the native backend it delegates to. -/
def identify_mode_single_raster_key (backend : BackendSingle α)
    (key_fn parameter_fn : String) (ignore_channels : Bool := true)
    (ignore_keys : Option (Finset ℤ) := none) (band_indx : ℤ := 1) :
    List String × Except PyErr α :=
  match handle_common_args ignore_keys band_indx with
  | .error e => ([], .error e)
  | .ok ik => backend key_fn parameter_fn ignore_channels ik band_indx

/-- Embedding of the Python wrapper `identify_median_single_raster_key`. -/
def identify_median_single_raster_key (backend : BackendSingle α)
    (key_fn parameter_fn : String) (ignore_channels : Bool := true)
    (ignore_keys : Option (Finset ℤ) := none) (band_indx : ℤ := 1) :
    List String × Except PyErr α :=
  match handle_common_args ignore_keys band_indx with
  | .error e => ([], .error e)
  | .ok ik => backend key_fn parameter_fn ignore_channels ik band_indx

/-- Embedding of the Python wrapper `identify_mode_intersecting_raster_keys`. -/
def identify_mode_intersecting_raster_keys (backend : BackendInter α)
    (key_fn key2_fn parameter_fn : String) (ignore_channels : Bool := true)
    (ignore_keys : Option (Finset ℤ) := none)
    (ignore_keys2 : Option (Finset ℤ) := none) (band_indx : ℤ := 1) :
    List String × Except PyErr α :=
  match handle_common_args ignore_keys band_indx with
  | .error e => ([], .error e)
  | .ok ik =>
    backend key_fn key2_fn parameter_fn ignore_channels ik
      (ignore_keys2.getD ∅) band_indx

/-- Embedding of the Python wrapper `identify_median_intersecting_raster_keys`. -/
def identify_median_intersecting_raster_keys (backend : BackendInter α)
    (key_fn key2_fn parameter_fn : String) (ignore_channels : Bool := true)
    (ignore_keys : Option (Finset ℤ) := none)
    (ignore_keys2 : Option (Finset ℤ) := none) (band_indx : ℤ := 1) :
    List String × Except PyErr α :=
  match handle_common_args ignore_keys band_indx with
  | .error e => ([], .error e)
  | .ok ik =>
    backend key_fn key2_fn parameter_fn ignore_channels ik
      (ignore_keys2.getD ∅) band_indx

/-- A backend that opens nothing and succeeds, used to instantiate witnesses. -/
def trivialBackendSingle : BackendSingle Unit := fun _ _ _ _ _ => ([], .ok ())

/-- A trivial intersecting backend for witnesses. -/
def trivialBackendInter : BackendInter Unit := fun _ _ _ _ _ _ _ => ([], .ok ())

lemma handle_common_args_lt (ik : Option (Finset ℤ)) {b : ℤ} (h : b < 1) :
    handle_common_args ik b = .error (.valueError (bandIndxMsg b)) := by
  simp [handle_common_args, h]

lemma handle_common_args_ge (ik : Option (Finset ℤ)) {b : ℤ} (h : 1 ≤ b) :
    handle_common_args ik b = .ok (ik.getD ∅) := by
  simp [handle_common_args, not_lt.mpr h]

/-- C1: with `band_indx < 1`, every one of the four public entry points
returns a validation error whose message carries the offending `band_indx`
value, with an empty raster-access trace (no raster file opened or read),
whatever the native backend would do. -/
theorem c1_band_indx_validated_before_any_raster_access
    (bS bS' : BackendSingle α) (bI bI' : BackendInter α)
    (key_fn key2_fn parameter_fn : String) (ignore_channels : Bool)
    (ignore_keys ignore_keys2 : Option (Finset ℤ)) (band_indx : ℤ)
    (h : band_indx < 1) :
    (∃ before after,
      bandIndxMsg band_indx = before ++ toString band_indx ++ after) ∧
    identify_mode_single_raster_key bS key_fn parameter_fn ignore_channels
        ignore_keys band_indx
      = ([], .error (.valueError (bandIndxMsg band_indx))) ∧
    identify_median_single_raster_key bS' key_fn parameter_fn ignore_channels
        ignore_keys band_indx
      = ([], .error (.valueError (bandIndxMsg band_indx))) ∧
    identify_mode_intersecting_raster_keys bI key_fn key2_fn parameter_fn
        ignore_channels ignore_keys ignore_keys2 band_indx
      = ([], .error (.valueError (bandIndxMsg band_indx))) ∧
    identify_median_intersecting_raster_keys bI' key_fn key2_fn parameter_fn
        ignore_channels ignore_keys ignore_keys2 band_indx
      = ([], .error (.valueError (bandIndxMsg band_indx))) := by
  refine ⟨⟨"band_indx must be >= 1. Got ", " instead.", rfl⟩, ?_, ?_, ?_, ?_⟩ <;>
    simp [identify_mode_single_raster_key, identify_median_single_raster_key,
      identify_mode_intersecting_raster_keys,
      identify_median_intersecting_raster_keys, handle_common_args_lt _ h]

/-- Witness for C1 at `band_indx = 0`. -/
theorem c1_witness :
    (0 : ℤ) < 1 ∧
    ((∃ before after, bandIndxMsg 0 = before ++ toString (0 : ℤ) ++ after) ∧
    identify_mode_single_raster_key trivialBackendSingle "k" "p" true none 0
      = ([], .error (.valueError (bandIndxMsg 0))) ∧
    identify_median_single_raster_key trivialBackendSingle "k" "p" true none 0
      = ([], .error (.valueError (bandIndxMsg 0))) ∧
    identify_mode_intersecting_raster_keys trivialBackendInter "k" "k2" "p"
        true none none 0
      = ([], .error (.valueError (bandIndxMsg 0))) ∧
    identify_median_intersecting_raster_keys trivialBackendInter "k" "k2" "p"
        true none none 0
      = ([], .error (.valueError (bandIndxMsg 0)))) :=
  ⟨by decide,
    c1_band_indx_validated_before_any_raster_access trivialBackendSingle
      trivialBackendSingle trivialBackendInter trivialBackendInter
      "k" "k2" "p" true none none 0 (by decide)⟩

/-- C9: with `band_indx ≥ 1`, every wrapper returns exactly its backend's
value at the same arguments, with a `None` ignore set replaced by the empty
set; the wrapper adds no file access and no post-processing. -/
theorem c9_wrappers_refine_backends
    (bS bS' : BackendSingle α) (bI bI' : BackendInter α)
    (key_fn key2_fn parameter_fn : String) (ignore_channels : Bool)
    (ignore_keys ignore_keys2 : Option (Finset ℤ)) (band_indx : ℤ)
    (h : 1 ≤ band_indx) :
    identify_mode_single_raster_key bS key_fn parameter_fn ignore_channels
        ignore_keys band_indx
      = bS key_fn parameter_fn ignore_channels (ignore_keys.getD ∅) band_indx ∧
    identify_median_single_raster_key bS' key_fn parameter_fn ignore_channels
        ignore_keys band_indx
      = bS' key_fn parameter_fn ignore_channels (ignore_keys.getD ∅) band_indx ∧
    identify_mode_intersecting_raster_keys bI key_fn key2_fn parameter_fn
        ignore_channels ignore_keys ignore_keys2 band_indx
      = bI key_fn key2_fn parameter_fn ignore_channels (ignore_keys.getD ∅)
          (ignore_keys2.getD ∅) band_indx ∧
    identify_median_intersecting_raster_keys bI' key_fn key2_fn parameter_fn
        ignore_channels ignore_keys ignore_keys2 band_indx
      = bI' key_fn key2_fn parameter_fn ignore_channels (ignore_keys.getD ∅)
          (ignore_keys2.getD ∅) band_indx := by
  refine ⟨?_, ?_, ?_, ?_⟩ <;>
    simp [identify_mode_single_raster_key, identify_median_single_raster_key,
      identify_mode_intersecting_raster_keys,
      identify_median_intersecting_raster_keys, handle_common_args_ge _ h]

/-- Witness for C9 at `band_indx = 2` with trivial backends. -/
theorem c9_witness :
    (1 : ℤ) ≤ 2 ∧
    (identify_mode_single_raster_key trivialBackendSingle "k" "p" true none 2
      = trivialBackendSingle "k" "p" true (Option.getD none ∅) 2 ∧
    identify_median_single_raster_key trivialBackendSingle "k" "p" true none 2
      = trivialBackendSingle "k" "p" true (Option.getD none ∅) 2 ∧
    identify_mode_intersecting_raster_keys trivialBackendInter "k" "k2" "p"
        true none none 2
      = trivialBackendInter "k" "k2" "p" true (Option.getD none ∅)
          (Option.getD none ∅) 2 ∧
    identify_median_intersecting_raster_keys trivialBackendInter "k" "k2" "p"
        true none none 2
      = trivialBackendInter "k" "k2" "p" true (Option.getD none ∅)
          (Option.getD none ∅) 2) :=
  ⟨by decide,
    c9_wrappers_refine_backends trivialBackendSingle trivialBackendSingle
      trivialBackendInter trivialBackendInter "k" "k2" "p" true none none 2
      (by decide)⟩

/-- C6: omitting the optional arguments equals passing
`ignore_channels = true`, an explicit empty ignore set and `band_indx = 1`;
and passing `None` for an ignore set gives the same result as passing the
empty set explicitly, for every entry point and every band index. -/
theorem c6_optional_argument_defaults
    (bS bS' : BackendSingle α) (bI bI' : BackendInter α)
    (key_fn key2_fn parameter_fn : String) (ignore_channels : Bool)
    (band_indx : ℤ) :
    (identify_mode_single_raster_key bS key_fn parameter_fn
      = identify_mode_single_raster_key bS key_fn parameter_fn true (some ∅) 1) ∧
    (identify_median_single_raster_key bS' key_fn parameter_fn
      = identify_median_single_raster_key bS' key_fn parameter_fn true (some ∅) 1) ∧
    (identify_mode_intersecting_raster_keys bI key_fn key2_fn parameter_fn
      = identify_mode_intersecting_raster_keys bI key_fn key2_fn parameter_fn
          true (some ∅) (some ∅) 1) ∧
    (identify_median_intersecting_raster_keys bI' key_fn key2_fn parameter_fn
      = identify_median_intersecting_raster_keys bI' key_fn key2_fn parameter_fn
          true (some ∅) (some ∅) 1) ∧
    (identify_mode_single_raster_key bS key_fn parameter_fn ignore_channels
        none band_indx
      = identify_mode_single_raster_key bS key_fn parameter_fn ignore_channels
          (some ∅) band_indx) ∧
    (identify_median_single_raster_key bS' key_fn parameter_fn ignore_channels
        none band_indx
      = identify_median_single_raster_key bS' key_fn parameter_fn
          ignore_channels (some ∅) band_indx) ∧
    (identify_mode_intersecting_raster_keys bI key_fn key2_fn parameter_fn
        ignore_channels none none band_indx
      = identify_mode_intersecting_raster_keys bI key_fn key2_fn parameter_fn
          ignore_channels (some ∅) (some ∅) band_indx) ∧
    (identify_median_intersecting_raster_keys bI' key_fn key2_fn parameter_fn
        ignore_channels none none band_indx
      = identify_median_intersecting_raster_keys bI' key_fn key2_fn
          parameter_fn ignore_channels (some ∅) (some ∅) band_indx) := by
  have hh : ∀ b : ℤ, handle_common_args none b = handle_common_args (some ∅) b := by
    intro b
    unfold handle_common_args
    split <;> rfl
  refine ⟨rfl, rfl, rfl, rfl, ?_, ?_, ?_, ?_⟩ <;>
    simp [identify_mode_single_raster_key, identify_median_single_raster_key,
      identify_mode_intersecting_raster_keys,
      identify_median_intersecting_raster_keys, hh]

/-! ## Dynamically-typed call layer for the ignore-set members (the Python
wrapper forwards whatever set object the caller passed; the conversion to a
set of machine integers happens at the native boundary). -/

/-- A Python value that could sit inside a caller-supplied ignore set. -/
inductive PyVal where
  | intVal (n : ℤ)
  | floatVal (q : ℚ)
  | strVal (s : String)
deriving DecidableEq

/-- Integer extraction at the native boundary: only `int` members convert. -/
def PyVal.asInt : PyVal → Option ℤ
  | .intVal n => some n
  | _ => none

/-- The conversion failure message at the native argument boundary. -/
def ignoreSetMsg : String := "ignore_keys members must be integers"

/-- Modelled from the spec: the native extension's argument boundary converts
every ignore-set member to an integer and fails with a validation error on a
non-integer member, before any I/O is performed (the extension is not part of
the visible sources). -/
def extractIgnoreSet : List PyVal → Except PyErr (Finset ℤ)
  | [] => .ok ∅
  | v :: rest =>
    match v.asInt with
    | none => .error (.valueError ignoreSetMsg)
    | some n => (extractIgnoreSet rest).map (insert n)

/-- A single-key native call begins by converting the ignore set; only on
success does the backend (which performs the raster I/O) run. -/
def nativeCallSingle (impl : BackendSingle α) (key_fn parameter_fn : String)
    (ignore_channels : Bool) (ignore_keys : List PyVal) (band_indx : ℤ) :
    List String × Except PyErr α :=
  match extractIgnoreSet ignore_keys with
  | .error e => ([], .error e)
  | .ok ik => impl key_fn parameter_fn ignore_channels ik band_indx

/-- An intersecting native call converts both ignore sets before any I/O. -/
def nativeCallInter (impl : BackendInter α) (key_fn key2_fn parameter_fn : String)
    (ignore_channels : Bool) (ignore_keys ignore_keys2 : List PyVal)
    (band_indx : ℤ) : List String × Except PyErr α :=
  match extractIgnoreSet ignore_keys with
  | .error e => ([], .error e)
  | .ok ik =>
    match extractIgnoreSet ignore_keys2 with
    | .error e => ([], .error e)
    | .ok ik2 => impl key_fn key2_fn parameter_fn ignore_channels ik ik2 band_indx

/-- The full `identify_mode_single_raster_key` call with a dynamically-typed
ignore set: the Python-side band check, then the native boundary. -/
def dynModeSingle (impl : BackendSingle α) (key_fn parameter_fn : String)
    (ignore_channels : Bool) (ignore_keys : Option (List PyVal))
    (band_indx : ℤ) : List String × Except PyErr α :=
  if band_indx < 1 then ([], .error (.valueError (bandIndxMsg band_indx)))
  else nativeCallSingle impl key_fn parameter_fn ignore_channels
    (ignore_keys.getD []) band_indx

/-- The full `identify_median_single_raster_key` call with a dynamically-typed
ignore set. -/
def dynMedianSingle (impl : BackendSingle α) (key_fn parameter_fn : String)
    (ignore_channels : Bool) (ignore_keys : Option (List PyVal))
    (band_indx : ℤ) : List String × Except PyErr α :=
  if band_indx < 1 then ([], .error (.valueError (bandIndxMsg band_indx)))
  else nativeCallSingle impl key_fn parameter_fn ignore_channels
    (ignore_keys.getD []) band_indx

/-- The full `identify_mode_intersecting_raster_keys` call with
dynamically-typed ignore sets. -/
def dynModeInter (impl : BackendInter α) (key_fn key2_fn parameter_fn : String)
    (ignore_channels : Bool) (ignore_keys ignore_keys2 : Option (List PyVal))
    (band_indx : ℤ) : List String × Except PyErr α :=
  if band_indx < 1 then ([], .error (.valueError (bandIndxMsg band_indx)))
  else nativeCallInter impl key_fn key2_fn parameter_fn ignore_channels
    (ignore_keys.getD []) (ignore_keys2.getD []) band_indx

/-- The full `identify_median_intersecting_raster_keys` call with
dynamically-typed ignore sets. -/
def dynMedianInter (impl : BackendInter α) (key_fn key2_fn parameter_fn : String)
    (ignore_channels : Bool) (ignore_keys ignore_keys2 : Option (List PyVal))
    (band_indx : ℤ) : List String × Except PyErr α :=
  if band_indx < 1 then ([], .error (.valueError (bandIndxMsg band_indx)))
  else nativeCallInter impl key_fn key2_fn parameter_fn ignore_channels
    (ignore_keys.getD []) (ignore_keys2.getD []) band_indx

lemma extractIgnoreSet_error {v : PyVal} {l : List PyVal} (hmem : v ∈ l)
    (hv : v.asInt = none) :
    extractIgnoreSet l = .error (.valueError ignoreSetMsg) := by
  induction l with
  | nil => cases hmem
  | cons w rest ih =>
    rcases List.mem_cons.mp hmem with rfl | hmem'
    · simp [extractIgnoreSet, hv]
    · unfold extractIgnoreSet
      cases hw : w.asInt with
      | none => rfl
      | some n => rw [ih hmem']; rfl

lemma extractIgnoreSet_error_shape {l : List PyVal} {e : PyErr}
    (h : extractIgnoreSet l = .error e) : e = .valueError ignoreSetMsg := by
  induction l with
  | nil => simp [extractIgnoreSet] at h
  | cons w rest ih =>
    unfold extractIgnoreSet at h
    cases hw : w.asInt with
    | none =>
      rw [hw] at h
      exact (Except.error.inj h).symm
    | some n =>
      rw [hw] at h
      cases hr : extractIgnoreSet rest with
      | error e2 =>
        rw [hr] at h
        simp only [Except.map] at h
        obtain rfl := Except.error.inj h
        exact ih hr
      | ok s =>
        rw [hr] at h
        simp [Except.map] at h

lemma nativeCallInter_error_of_bad_second (impl : BackendInter α)
    (key_fn key2_fn parameter_fn : String) (ignore_channels : Bool)
    (iksA iks2 : List PyVal) (band_indx : ℤ) {w : PyVal}
    (hw : w.asInt = none) (hmem2 : w ∈ iks2) :
    nativeCallInter impl key_fn key2_fn parameter_fn ignore_channels iksA iks2
        band_indx
      = ([], .error (.valueError ignoreSetMsg)) := by
  have h2 := extractIgnoreSet_error hmem2 hw
  unfold nativeCallInter
  cases hA : extractIgnoreSet iksA with
  | error e => simp [extractIgnoreSet_error_shape hA]
  | ok s => simp [h2]

/-- C2: a call whose ignore set (`ignore_keys`, or `ignore_keys2` for the
intersecting variants) contains a non-integer member fails with a validation
error and an empty raster-access trace — no I/O is performed, whatever the
backend would do and whatever the companion ignore set holds. -/
theorem c2_non_integer_ignore_set_members
    (iS iS' : BackendSingle α) (iI iI' : BackendInter α)
    (key_fn key2_fn parameter_fn : String) (ignore_channels : Bool)
    (iks iks2 iksA iks2A : List PyVal) (band_indx : ℤ) (v w : PyVal)
    (hv : v.asInt = none) (hmem : v ∈ iks)
    (hw : w.asInt = none) (hmem2 : w ∈ iks2) :
    (∃ m, dynModeSingle iS key_fn parameter_fn ignore_channels (some iks)
        band_indx = ([], .error (.valueError m))) ∧
    (∃ m, dynMedianSingle iS' key_fn parameter_fn ignore_channels (some iks)
        band_indx = ([], .error (.valueError m))) ∧
    (∃ m, dynModeInter iI key_fn key2_fn parameter_fn ignore_channels
        (some iks) (some iks2A) band_indx = ([], .error (.valueError m))) ∧
    (∃ m, dynModeInter iI key_fn key2_fn parameter_fn ignore_channels
        (some iksA) (some iks2) band_indx = ([], .error (.valueError m))) ∧
    (∃ m, dynMedianInter iI' key_fn key2_fn parameter_fn ignore_channels
        (some iks) (some iks2A) band_indx = ([], .error (.valueError m))) ∧
    (∃ m, dynMedianInter iI' key_fn key2_fn parameter_fn ignore_channels
        (some iksA) (some iks2) band_indx = ([], .error (.valueError m))) := by
  have h1 := extractIgnoreSet_error hmem hv
  by_cases hb : band_indx < 1
  · exact ⟨⟨bandIndxMsg band_indx, by simp [dynModeSingle, hb]⟩,
      ⟨bandIndxMsg band_indx, by simp [dynMedianSingle, hb]⟩,
      ⟨bandIndxMsg band_indx, by simp [dynModeInter, hb]⟩,
      ⟨bandIndxMsg band_indx, by simp [dynModeInter, hb]⟩,
      ⟨bandIndxMsg band_indx, by simp [dynMedianInter, hb]⟩,
      ⟨bandIndxMsg band_indx, by simp [dynMedianInter, hb]⟩⟩
  · refine ⟨⟨ignoreSetMsg, ?_⟩, ⟨ignoreSetMsg, ?_⟩, ⟨ignoreSetMsg, ?_⟩,
      ⟨ignoreSetMsg, ?_⟩, ⟨ignoreSetMsg, ?_⟩, ⟨ignoreSetMsg, ?_⟩⟩
    · simp [dynModeSingle, nativeCallSingle, hb, h1]
    · simp [dynMedianSingle, nativeCallSingle, hb, h1]
    · simp [dynModeInter, nativeCallInter, hb, h1]
    · unfold dynModeInter
      rw [if_neg hb]
      simp only [Option.getD_some]
      exact nativeCallInter_error_of_bad_second iI _ _ _ _ _ _ _ hw hmem2
    · simp [dynMedianInter, nativeCallInter, hb, h1]
    · unfold dynMedianInter
      rw [if_neg hb]
      simp only [Option.getD_some]
      exact nativeCallInter_error_of_bad_second iI' _ _ _ _ _ _ _ hw hmem2

/-- Witness for C2 with the string member `"x"` in the bad ignore set and the
valid integer sets `{1, 2}` and `{3}` as the companion sets — in particular a
call with valid `ignore_keys = {1, 2}` and a non-integer member in
`ignore_keys2` fails. -/
theorem c2_witness :
    (PyVal.strVal "x").asInt = none ∧
    PyVal.strVal "x" ∈ [PyVal.strVal "x"] ∧
    ((∃ m, dynModeSingle trivialBackendSingle "k" "p" true
        (some [PyVal.strVal "x"]) 1 = ([], .error (.valueError m))) ∧
    (∃ m, dynMedianSingle trivialBackendSingle "k" "p" true
        (some [PyVal.strVal "x"]) 1 = ([], .error (.valueError m))) ∧
    (∃ m, dynModeInter trivialBackendInter "k" "k2" "p" true
        (some [PyVal.strVal "x"]) (some [PyVal.intVal 3]) 1
      = ([], .error (.valueError m))) ∧
    (∃ m, dynModeInter trivialBackendInter "k" "k2" "p" true
        (some [PyVal.intVal 1, PyVal.intVal 2]) (some [PyVal.strVal "x"]) 1
      = ([], .error (.valueError m))) ∧
    (∃ m, dynMedianInter trivialBackendInter "k" "k2" "p" true
        (some [PyVal.strVal "x"]) (some [PyVal.intVal 3]) 1
      = ([], .error (.valueError m))) ∧
    (∃ m, dynMedianInter trivialBackendInter "k" "k2" "p" true
        (some [PyVal.intVal 1, PyVal.intVal 2]) (some [PyVal.strVal "x"]) 1
      = ([], .error (.valueError m)))) :=
  ⟨rfl, List.mem_singleton.mpr rfl,
    c2_non_integer_ignore_set_members trivialBackendSingle trivialBackendSingle
      trivialBackendInter trivialBackendInter "k" "k2" "p" true
      [PyVal.strVal "x"] [PyVal.strVal "x"]
      [PyVal.intVal 1, PyVal.intVal 2] [PyVal.intVal 3] 1 (PyVal.strVal "x")
      (PyVal.strVal "x") rfl (List.mem_singleton.mpr rfl) rfl
      (List.mem_singleton.mpr rfl)⟩

/-! ## Engine model (the native engine is not part of the visible sources;
every definition below is modelled from the specification). -/

/-- Modelled from the spec: KeyFilter rejects a pixel equal to the nodata
sentinel or belonging to the caller-supplied ignore set, and otherwise accepts
its integer key.  (The multi-channel collapse policy is an open question of
the spec; keys here are the single collapsed channel value.) -/
def keyFilter (nodata : Option ℤ) (ignore : Finset ℤ) (v : ℤ) : Option ℤ :=
  if some v = nodata then none
  else if v ∈ ignore then none
  else some v

/-- Modelled from the spec: the single-raster sample stream pairs each pixel's
key value with its parameter sample; rejected pixels are dropped. -/
def collectSingle {α : Type} (nodata : Option ℤ) (ignore : Finset ℤ)
    (pix : List (ℤ × α)) : List (ℤ × α) :=
  pix.filterMap fun p => (keyFilter nodata ignore p.1).map fun k => (k, p.2)

/-- Modelled from the spec: the intersecting-raster stream keeps a pixel only
when both key rasters independently accept it, with independent ignore sets. -/
def collectInter {α : Type} (nodata1 nodata2 : Option ℤ)
    (ignore1 ignore2 : Finset ℤ) (pix : List ((ℤ × ℤ) × α)) :
    List ((ℤ × ℤ) × α) :=
  pix.filterMap fun p =>
    (keyFilter nodata1 ignore1 p.1.1).bind fun k1 =>
      (keyFilter nodata2 ignore2 p.1.2).map fun k2 => ((k1, k2), p.2)

/-- GroupKeyEncoder, single-raster variant: decimal string form. -/
def groupKeyStr (k : ℤ) : String := toString k

/-- GroupKeyEncoder, intersecting variant: `"key,key2"`, first key first. -/
def pairKeyStr (k : ℤ × ℤ) : String := toString k.1 ++ "," ++ toString k.2

/-- Ascending sort of collected parameter samples. -/
def sortAsc (l : List ℚ) : List ℚ := List.insertionSort (· ≤ ·) l

/-- Modelled from the spec: median accumulator finalization — sort ascending;
odd count takes the middle element, even count the arithmetic mean of the two
central elements; an empty group yields nothing. -/
def median (l : List ℚ) : Option ℚ :=
  if l = [] then none
  else if l.length % 2 = 1 then some ((sortAsc l).getD (l.length / 2) 0)
  else some
    (((sortAsc l).getD (l.length / 2 - 1) 0 + (sortAsc l).getD (l.length / 2) 0) / 2)

/-- Modelled from the spec: mode accumulator finalization — the value with the
maximal occurrence count; the tie-break (an explicit documented choice the
spec requires) is the smallest such value. -/
def modeFinalize (l : List ℤ) : Option ℤ :=
  match List.insertionSort (· ≤ ·) l.dedup with
  | [] => none
  | c :: cs => some (cs.foldl (fun best v => if l.count best < l.count v then v else best) c)

/-- Modelled from the spec: merging two mode accumulators sums their frequency
tables pointwise. -/
def modeMerge (f g : ℤ → ℕ) : ℤ → ℕ := fun v => f v + g v

/-- The frequency table a list of samples accumulates to. -/
def freqOf (l : List ℤ) : ℤ → ℕ := fun v => l.count v

/-- Modelled from the spec: the ResultMap, as the finite mapping from a group
key's string form to the finalized statistic of that group's samples (`none`
encodes absence of the group from the returned dictionary). -/
def resultMapOf {κ α β : Type} (finalize : List α → Option β)
    (keyStr : κ → String) (samples : List (κ × α)) : String → Option β :=
  fun s => finalize ((samples.filter fun p => decide (keyStr p.1 = s)).map Prod.snd)

/-- Modelled from the spec: `identify_median_single_raster_key`'s engine. -/
def engineMedianSingle (nodata : Option ℤ) (ignore : Finset ℤ)
    (pix : List (ℤ × ℚ)) : String → Option ℚ :=
  resultMapOf median groupKeyStr (collectSingle nodata ignore pix)

/-- Modelled from the spec: `identify_mode_single_raster_key`'s engine. -/
def engineModeSingle (nodata : Option ℤ) (ignore : Finset ℤ)
    (pix : List (ℤ × ℤ)) : String → Option ℤ :=
  resultMapOf modeFinalize groupKeyStr (collectSingle nodata ignore pix)

/-- Modelled from the spec: `identify_median_intersecting_raster_keys`'s
engine. -/
def engineMedianInter (nodata1 nodata2 : Option ℤ) (ignore1 ignore2 : Finset ℤ)
    (pix : List ((ℤ × ℤ) × ℚ)) : String → Option ℚ :=
  resultMapOf median pairKeyStr (collectInter nodata1 nodata2 ignore1 ignore2 pix)

/-- Modelled from the spec: `identify_mode_intersecting_raster_keys`'s engine. -/
def engineModeInter (nodata1 nodata2 : Option ℤ) (ignore1 ignore2 : Finset ℤ)
    (pix : List ((ℤ × ℤ) × ℤ)) : String → Option ℤ :=
  resultMapOf modeFinalize pairKeyStr (collectInter nodata1 nodata2 ignore1 ignore2 pix)

/-- Row-major pixel stream of a key raster zipped with a parameter raster of
the same shape. -/
def rasterPixels {α : Type} (key : List (List ℤ)) (param : List (List α)) :
    List (ℤ × α) :=
  key.flatten.zip param.flatten

/-- The spec's concrete scenario: key raster `[[1,1],[2,2]]` with parameter
band `[[10,20],[30,30]]`. -/
def examplePix : List (ℤ × ℚ) :=
  rasterPixels [[1, 1], [2, 2]] [[10, 20], [30, 30]]

lemma sortAsc_perm (l : List ℚ) : (sortAsc l).Perm l :=
  List.perm_insertionSort (· ≤ ·) l

lemma sortAsc_sorted (l : List ℚ) : (sortAsc l).Sorted (· ≤ ·) :=
  List.sorted_insertionSort (· ≤ ·) l

lemma sortAsc_eq_of_perm_sorted {l s : List ℚ} (hp : s.Perm l)
    (hs : s.Sorted (· ≤ ·)) : sortAsc l = s :=
  List.eq_of_perm_of_sorted ((sortAsc_perm l).trans hp.symm) (sortAsc_sorted l) hs

lemma median_perm {a b : List ℚ} (h : a.Perm b) : median a = median b := by
  rcases eq_or_ne a [] with rfl | hne
  · rw [h.symm.eq_nil]
  · have hbne : b ≠ [] := fun hb => hne (by rw [hb] at h; exact h.eq_nil)
    have hlen := h.length_eq
    have hsort : sortAsc a = sortAsc b :=
      List.eq_of_perm_of_sorted
        ((sortAsc_perm a).trans (h.trans (sortAsc_perm b).symm))
        (sortAsc_sorted a) (sortAsc_sorted b)
    simp [median, hne, hbne, hlen, hsort]

lemma modeFinalize_perm {a b : List ℤ} (h : a.Perm b) :
    modeFinalize a = modeFinalize b := by
  have hd : List.insertionSort (· ≤ ·) a.dedup = List.insertionSort (· ≤ ·) b.dedup :=
    List.eq_of_perm_of_sorted
      ((List.perm_insertionSort _ _).trans
        (h.dedup.trans (List.perm_insertionSort _ _).symm))
      (List.sorted_insertionSort _ _) (List.sorted_insertionSort _ _)
  have hcf : (fun (best v : ℤ) => if a.count best < a.count v then v else best)
      = fun best v => if b.count best < b.count v then v else best := by
    funext best v
    rw [h.count_eq, h.count_eq]
  unfold modeFinalize
  rw [hd, hcf]

lemma resultMapOf_perm {κ α β : Type} (finalize : List α → Option β)
    (hfin : ∀ {x y : List α}, x.Perm y → finalize x = finalize y)
    (keyStr : κ → String) {s1 s2 : List (κ × α)} (h : s1.Perm s2) :
    resultMapOf finalize keyStr s1 = resultMapOf finalize keyStr s2 := by
  funext s
  exact hfin ((h.filter _).map _)

lemma collectSingle_perm {α : Type} (nd : Option ℤ) (ig : Finset ℤ)
    {p1 p2 : List (ℤ × α)} (h : p1.Perm p2) :
    (collectSingle nd ig p1).Perm (collectSingle nd ig p2) :=
  h.filterMap _

lemma collectInter_perm {α : Type} (nd1 nd2 : Option ℤ) (ig1 ig2 : Finset ℤ)
    {p1 p2 : List ((ℤ × ℤ) × α)} (h : p1.Perm p2) :
    (collectInter nd1 nd2 ig1 ig2 p1).Perm (collectInter nd1 nd2 ig1 ig2 p2) :=
  h.filterMap _

/-- C4: accumulator merging is associative and commutative — pointwise sum of
mode frequency tables (which is what concatenating sample streams accumulates
to), and sample concatenation for the median, commutative up to the finalized
statistic — and consequently every engine's ResultMap is unchanged when the
row blocks are processed in a different order. -/
theorem c4_merge_associative_commutative_order_invariant :
    (∀ f g h : ℤ → ℕ, modeMerge (modeMerge f g) h = modeMerge f (modeMerge g h)) ∧
    (∀ f g : ℤ → ℕ, modeMerge f g = modeMerge g f) ∧
    (∀ a b : List ℤ, freqOf (a ++ b) = modeMerge (freqOf a) (freqOf b)) ∧
    (∀ a b c : List ℚ, median ((a ++ b) ++ c) = median (a ++ (b ++ c))) ∧
    (∀ a b : List ℚ, median (a ++ b) = median (b ++ a)) ∧
    (∀ a b : List ℤ, modeFinalize (a ++ b) = modeFinalize (b ++ a)) ∧
    (∀ (nd : Option ℤ) (ig : Finset ℤ) (blocks1 blocks2 : List (List (ℤ × ℚ))),
      blocks1.Perm blocks2 →
      engineMedianSingle nd ig blocks1.flatten
        = engineMedianSingle nd ig blocks2.flatten) ∧
    (∀ (nd : Option ℤ) (ig : Finset ℤ) (blocks1 blocks2 : List (List (ℤ × ℤ))),
      blocks1.Perm blocks2 →
      engineModeSingle nd ig blocks1.flatten
        = engineModeSingle nd ig blocks2.flatten) ∧
    (∀ (nd1 nd2 : Option ℤ) (ig1 ig2 : Finset ℤ)
      (blocks1 blocks2 : List (List ((ℤ × ℤ) × ℚ))),
      blocks1.Perm blocks2 →
      engineMedianInter nd1 nd2 ig1 ig2 blocks1.flatten
        = engineMedianInter nd1 nd2 ig1 ig2 blocks2.flatten) ∧
    (∀ (nd1 nd2 : Option ℤ) (ig1 ig2 : Finset ℤ)
      (blocks1 blocks2 : List (List ((ℤ × ℤ) × ℤ))),
      blocks1.Perm blocks2 →
      engineModeInter nd1 nd2 ig1 ig2 blocks1.flatten
        = engineModeInter nd1 nd2 ig1 ig2 blocks2.flatten) := by
  refine ⟨?_, ?_, ?_, ?_, ?_, ?_, ?_, ?_, ?_, ?_⟩
  · intro f g h
    funext v
    exact Nat.add_assoc _ _ _
  · intro f g
    funext v
    exact Nat.add_comm _ _
  · intro a b
    funext v
    exact List.count_append v a b
  · intro a b c
    rw [List.append_assoc]
  · intro a b
    exact median_perm List.perm_append_comm
  · intro a b
    exact modeFinalize_perm List.perm_append_comm
  · intro nd ig b1 b2 h
    exact resultMapOf_perm median (fun hp => median_perm hp) groupKeyStr
      (collectSingle_perm nd ig h.flatten)
  · intro nd ig b1 b2 h
    exact resultMapOf_perm modeFinalize (fun hp => modeFinalize_perm hp)
      groupKeyStr (collectSingle_perm nd ig h.flatten)
  · intro nd1 nd2 ig1 ig2 b1 b2 h
    exact resultMapOf_perm median (fun hp => median_perm hp) pairKeyStr
      (collectInter_perm nd1 nd2 ig1 ig2 h.flatten)
  · intro nd1 nd2 ig1 ig2 b1 b2 h
    exact resultMapOf_perm modeFinalize (fun hp => modeFinalize_perm hp)
      pairKeyStr (collectInter_perm nd1 nd2 ig1 ig2 h.flatten)

/-- Witness for C4: two row blocks processed in swapped order give the same
median ResultMap. -/
theorem c4_witness :
    ([[((1 : ℤ), (10 : ℚ))], [(2, 20)]] : List (List (ℤ × ℚ))).Perm
      [[(2, 20)], [(1, 10)]] ∧
    engineMedianSingle none ∅
        ([[((1 : ℤ), (10 : ℚ))], [(2, 20)]] : List (List (ℤ × ℚ))).flatten
      = engineMedianSingle none ∅
          ([[(2, 20)], [(1, 10)]] : List (List (ℤ × ℚ))).flatten :=
  ⟨by decide,
    c4_merge_associative_commutative_order_invariant.2.2.2.2.2.2.1 none ∅
      [[(1, 10)], [(2, 20)]] [[(2, 20)], [(1, 10)]] (by decide)⟩

/-- C3: the median of a group is obtained by sorting its samples ascending
and taking the middle element (odd count) or the mean of the two central
elements (even count) — stated against any sorted permutation of the
samples — and on the spec's 2×2 scenario the median engine returns
`{"1": 15, "2": 30}`. -/
theorem c3_median_by_sorting_and_concrete_scenario :
    (∀ (l s : List ℚ), l ≠ [] → s.Perm l → s.Sorted (· ≤ ·) →
      median l = some (if l.length % 2 = 1 then s.getD (l.length / 2) 0
        else (s.getD (l.length / 2 - 1) 0 + s.getD (l.length / 2) 0) / 2)) ∧
    engineMedianSingle none ∅ examplePix "1" = some 15 ∧
    engineMedianSingle none ∅ examplePix "2" = some 30 := by
  refine ⟨?_, ?_, ?_⟩
  · intro l s hne hp hs
    have hsa : sortAsc l = s := sortAsc_eq_of_perm_sorted hp hs
    by_cases hodd : l.length % 2 = 1 <;> simp [median, hne, hodd, hsa]
  · refine (congrArg median (by decide :
      ((collectSingle none ∅ examplePix).filter fun p =>
        decide (groupKeyStr p.1 = "1")).map Prod.snd = [10, 20])).trans ?_
    have h2 : ([10, 20] : List ℚ) ≠ [] := by decide
    norm_num [median, h2, sortAsc, List.insertionSort, List.orderedInsert]
  · refine (congrArg median (by decide :
      ((collectSingle none ∅ examplePix).filter fun p =>
        decide (groupKeyStr p.1 = "2")).map Prod.snd = [30, 30])).trans ?_
    have h2 : ([30, 30] : List ℚ) ≠ [] := by decide
    norm_num [median, h2, sortAsc, List.insertionSort, List.orderedInsert]

/-- Witness for C3: the sorted-permutation characterization applied to the
concrete group `[20, 10]` with sorted permutation `[10, 20]`. -/
theorem c3_witness :
    ([20, 10] : List ℚ) ≠ [] ∧
    ([10, 20] : List ℚ).Perm [20, 10] ∧
    ([10, 20] : List ℚ).Sorted (· ≤ ·) ∧
    median [20, 10]
      = some (if ([20, 10] : List ℚ).length % 2 = 1
          then ([10, 20] : List ℚ).getD (([20, 10] : List ℚ).length / 2) 0
          else (([10, 20] : List ℚ).getD (([20, 10] : List ℚ).length / 2 - 1) 0
            + ([10, 20] : List ℚ).getD (([20, 10] : List ℚ).length / 2) 0) / 2) :=
  ⟨by decide, by decide, by decide,
    c3_median_by_sorting_and_concrete_scenario.1 [20, 10] [10, 20]
      (by decide) (by decide) (by decide)⟩

lemma keyFilter_eq_some {nd : Option ℤ} {ig : Finset ℤ} {v k : ℤ} :
    keyFilter nd ig v = some k ↔ k = v ∧ some v ≠ nd ∧ v ∉ ig := by
  unfold keyFilter
  split_ifs with h1 h2 <;> simp_all [eq_comm]

lemma keyFilter_isSome {nd : Option ℤ} {ig : Finset ℤ} {v : ℤ} :
    (keyFilter nd ig v).isSome ↔ some v ≠ nd ∧ v ∉ ig := by
  unfold keyFilter
  split_ifs with h1 h2 <;> simp_all

lemma median_isSome (l : List ℚ) : (median l).isSome ↔ l ≠ [] := by
  rcases eq_or_ne l [] with rfl | h
  · simp [median]
  · rw [median, if_neg h]
    split_ifs <;> simp [h]

lemma modeFinalize_isSome (l : List ℤ) : (modeFinalize l).isSome ↔ l ≠ [] := by
  unfold modeFinalize
  rcases hs : List.insertionSort (· ≤ ·) l.dedup with _ | ⟨c, cs⟩
  · have hperm := List.perm_insertionSort (· ≤ ·) l.dedup
    rw [hs] at hperm
    have hnil : l = [] := (List.dedup_eq_nil _).mp hperm.symm.eq_nil
    simp [hnil]
  · have hne : l ≠ [] := by
      intro hl
      rw [hl] at hs
      simp at hs
    simp [hne]

lemma resultMapOf_isSome {κ α β : Type} (finalize : List α → Option β)
    (keyStr : κ → String) (hfin : ∀ l, (finalize l).isSome ↔ l ≠ [])
    (samples : List (κ × α)) (s : String) :
    (resultMapOf finalize keyStr samples s).isSome
      ↔ ∃ p ∈ samples, keyStr p.1 = s := by
  unfold resultMapOf
  rw [hfin]
  simp [List.filter_eq_nil_iff]

lemma mem_collectSingle {α : Type} {nd : Option ℤ} {ig : Finset ℤ}
    {pix : List (ℤ × α)} {q : ℤ × α} :
    q ∈ collectSingle nd ig pix ↔ q ∈ pix ∧ some q.1 ≠ nd ∧ q.1 ∉ ig := by
  unfold collectSingle
  rw [List.mem_filterMap]
  constructor
  · rintro ⟨a, ha, hmap⟩
    rcases Option.map_eq_some'.mp hmap with ⟨k, hk, hpair⟩
    rcases keyFilter_eq_some.mp hk with ⟨rfl, hnd, hig⟩
    have haq : a = q := by rw [← hpair]
    subst haq
    exact ⟨ha, hnd, hig⟩
  · rintro ⟨hq, hnd, hig⟩
    refine ⟨q, hq, Option.map_eq_some'.mpr
      ⟨q.1, keyFilter_eq_some.mpr ⟨rfl, hnd, hig⟩, Prod.mk.eta⟩⟩

lemma mem_collectInter {α : Type} {nd1 nd2 : Option ℤ} {ig1 ig2 : Finset ℤ}
    {pix : List ((ℤ × ℤ) × α)} {q : (ℤ × ℤ) × α} :
    q ∈ collectInter nd1 nd2 ig1 ig2 pix
      ↔ q ∈ pix ∧ (keyFilter nd1 ig1 q.1.1).isSome
          ∧ (keyFilter nd2 ig2 q.1.2).isSome := by
  unfold collectInter
  rw [List.mem_filterMap]
  constructor
  · rintro ⟨a, ha, hmap⟩
    rcases Option.bind_eq_some.mp hmap with ⟨k1, hk1, hrest⟩
    rcases Option.map_eq_some'.mp hrest with ⟨k2, hk2, hpair⟩
    rcases keyFilter_eq_some.mp hk1 with ⟨rfl, hnd1, hig1⟩
    rcases keyFilter_eq_some.mp hk2 with ⟨rfl, hnd2, hig2⟩
    have haq : a = q := by rw [← hpair]
    subst haq
    exact ⟨ha, keyFilter_isSome.mpr ⟨hnd1, hig1⟩, keyFilter_isSome.mpr ⟨hnd2, hig2⟩⟩
  · rintro ⟨hq, hs1, hs2⟩
    rcases keyFilter_isSome.mp hs1 with ⟨hnd1, hig1⟩
    rcases keyFilter_isSome.mp hs2 with ⟨hnd2, hig2⟩
    refine ⟨q, hq, Option.bind_eq_some.mpr
      ⟨q.1.1, keyFilter_eq_some.mpr ⟨rfl, hnd1, hig1⟩,
        Option.map_eq_some'.mpr ⟨q.1.2, keyFilter_eq_some.mpr ⟨rfl, hnd2, hig2⟩,
          rfl⟩⟩⟩

lemma engineSingle_isSome_aux {α β : Type} (finalize : List α → Option β)
    (hfin : ∀ l, (finalize l).isSome ↔ l ≠ []) (nd : Option ℤ) (ig : Finset ℤ)
    (pix : List (ℤ × α)) (s : String) :
    (resultMapOf finalize groupKeyStr (collectSingle nd ig pix) s).isSome
      ↔ ∃ p ∈ pix, (keyFilter nd ig p.1).isSome ∧ groupKeyStr p.1 = s := by
  rw [resultMapOf_isSome finalize groupKeyStr hfin]
  constructor
  · rintro ⟨p, hp, hstr⟩
    rcases mem_collectSingle.mp hp with ⟨hpix, hnd, hig⟩
    exact ⟨p, hpix, keyFilter_isSome.mpr ⟨hnd, hig⟩, hstr⟩
  · rintro ⟨p, hpix, hacc, hstr⟩
    rcases keyFilter_isSome.mp hacc with ⟨hnd, hig⟩
    exact ⟨p, mem_collectSingle.mpr ⟨hpix, hnd, hig⟩, hstr⟩

lemma engineInter_isSome_aux {α β : Type} (finalize : List α → Option β)
    (hfin : ∀ l, (finalize l).isSome ↔ l ≠ []) (nd1 nd2 : Option ℤ)
    (ig1 ig2 : Finset ℤ) (pix : List ((ℤ × ℤ) × α)) (s : String) :
    (resultMapOf finalize pairKeyStr (collectInter nd1 nd2 ig1 ig2 pix) s).isSome
      ↔ ∃ p ∈ pix, (keyFilter nd1 ig1 p.1.1).isSome
          ∧ (keyFilter nd2 ig2 p.1.2).isSome ∧ pairKeyStr p.1 = s := by
  rw [resultMapOf_isSome finalize pairKeyStr hfin]
  constructor
  · rintro ⟨p, hp, hstr⟩
    rcases mem_collectInter.mp hp with ⟨hpix, h1, h2⟩
    exact ⟨p, hpix, h1, h2, hstr⟩
  · rintro ⟨p, hpix, h1, h2, hstr⟩
    exact ⟨p, mem_collectInter.mpr ⟨hpix, h1, h2⟩, hstr⟩

/-- C5: a group-key string is present in an engine's ResultMap exactly when
some pixel contributed a valid (non-nodata, non-ignored, and doubly accepted
for the intersecting variants) sample to it — an empty group is silently
absent, never an error — and with an empty ignore set the single-raster key
set is exactly the distinct non-nodata key values present in the key
raster. -/
theorem c5_result_keys_iff_contributing_pixels :
    (∀ (nd : Option ℤ) (ig : Finset ℤ) (pix : List (ℤ × ℚ)) (s : String),
      (engineMedianSingle nd ig pix s).isSome
        ↔ ∃ p ∈ pix, (keyFilter nd ig p.1).isSome ∧ groupKeyStr p.1 = s) ∧
    (∀ (nd : Option ℤ) (ig : Finset ℤ) (pix : List (ℤ × ℤ)) (s : String),
      (engineModeSingle nd ig pix s).isSome
        ↔ ∃ p ∈ pix, (keyFilter nd ig p.1).isSome ∧ groupKeyStr p.1 = s) ∧
    (∀ (nd1 nd2 : Option ℤ) (ig1 ig2 : Finset ℤ) (pix : List ((ℤ × ℤ) × ℚ))
      (s : String),
      (engineMedianInter nd1 nd2 ig1 ig2 pix s).isSome
        ↔ ∃ p ∈ pix, (keyFilter nd1 ig1 p.1.1).isSome
            ∧ (keyFilter nd2 ig2 p.1.2).isSome ∧ pairKeyStr p.1 = s) ∧
    (∀ (nd1 nd2 : Option ℤ) (ig1 ig2 : Finset ℤ) (pix : List ((ℤ × ℤ) × ℤ))
      (s : String),
      (engineModeInter nd1 nd2 ig1 ig2 pix s).isSome
        ↔ ∃ p ∈ pix, (keyFilter nd1 ig1 p.1.1).isSome
            ∧ (keyFilter nd2 ig2 p.1.2).isSome ∧ pairKeyStr p.1 = s) ∧
    (∀ (nd : Option ℤ) (pix : List (ℤ × ℚ)) (s : String),
      (engineMedianSingle nd ∅ pix s).isSome
        ↔ ∃ k, groupKeyStr k = s ∧ some k ≠ nd ∧ ∃ v, (k, v) ∈ pix) ∧
    (∀ (nd : Option ℤ) (pix : List (ℤ × ℤ)) (s : String),
      (engineModeSingle nd ∅ pix s).isSome
        ↔ ∃ k, groupKeyStr k = s ∧ some k ≠ nd ∧ ∃ v, (k, v) ∈ pix) := by
  have hsingleMed := engineSingle_isSome_aux median median_isSome
  have hsingleMode := engineSingle_isSome_aux modeFinalize modeFinalize_isSome
  refine ⟨hsingleMed, hsingleMode,
    engineInter_isSome_aux median median_isSome,
    engineInter_isSome_aux modeFinalize modeFinalize_isSome, ?_, ?_⟩
  · intro nd pix s
    refine Iff.trans (hsingleMed nd ∅ pix s) ?_
    constructor
    · rintro ⟨p, hpix, hacc, hstr⟩
      exact ⟨p.1, hstr, (keyFilter_isSome.mp hacc).1, p.2, Prod.mk.eta ▸ hpix⟩
    · rintro ⟨k, hstr, hnd, v, hpix⟩
      exact ⟨(k, v), hpix, keyFilter_isSome.mpr ⟨hnd, Finset.not_mem_empty k⟩, hstr⟩
  · intro nd pix s
    refine Iff.trans (hsingleMode nd ∅ pix s) ?_
    constructor
    · rintro ⟨p, hpix, hacc, hstr⟩
      exact ⟨p.1, hstr, (keyFilter_isSome.mp hacc).1, p.2, Prod.mk.eta ▸ hpix⟩
    · rintro ⟨k, hstr, hnd, v, hpix⟩
      exact ⟨(k, v), hpix, keyFilter_isSome.mpr ⟨hnd, Finset.not_mem_empty k⟩, hstr⟩

/-! ## Geospatial interpolation boundary (the routine is not part of the
visible sources; modelled from the specification and from the behavior its
test suite documents). -/

/-- The interpolation failure taxonomy visible at this boundary. -/
inductive InterpErr where
  | domainError (msg : String)
deriving DecidableEq

/-- The domain-error message documented by `test_target_outside_domain`. -/
def domainMsg : String := "Target easting/northing is outside the grid domain"

/-- A time-varying grid: `data[i][j][t]` with `i` indexing `xs`, `j` indexing
`ys` and `t` the time/band dimension. -/
def GridData : Type := List (List (List ℚ))

/-- A per-method interpolation kernel, evaluated on an already ascending grid
at one time slice. -/
def Kernel : Type := List ℚ → List ℚ → GridData → ℚ → ℚ → Nat → ℚ

/-- `min l ≤ t ∧ t ≤ max l`, phrased by membership so it is insensitive to
the order of `l`. -/
def inAxisDomain (t : ℚ) (l : List ℚ) : Bool :=
  (l.any fun a => decide (a ≤ t)) && (l.any fun a => decide (t ≤ a))

/-- An axis is flipped to ascending when its last coordinate is below its
first (the descending-input convention the spec admits). -/
def needsFlip (l : List ℚ) : Bool :=
  match l.head?, l.getLast? with
  | some a, some b => decide (b < a)
  | _, _ => false

/-- Clamp the interpolated value into `[a_min, a_max]` when bounds are given. -/
def clampOpt (lo hi : Option ℚ) (v : ℚ) : ℚ :=
  match hi with
  | some b => min b (match lo with | some a => max a v | none => v)
  | none => match lo with | some a => max a v | none => v

/-- Modelled from the spec: normalize the x axis to ascending order, reversing
the data rows alongside. -/
def normalizeX (xs : List ℚ) (data : GridData) : List ℚ × GridData :=
  if needsFlip xs then (xs.reverse, data.reverse) else (xs, data)

/-- Modelled from the spec: normalize the y axis to ascending order, reversing
each data row alongside. -/
def normalizeY (ys : List ℚ) (data : GridData) : List ℚ × GridData :=
  if needsFlip ys then (ys.reverse, data.map List.reverse) else (ys, data)

/-- One output value per time slice, clamped when bounds were supplied. -/
def interpCore (kernel : Kernel) (tx ty : ℚ) (xs ys : List ℚ) (data : GridData)
    (amin amax : Option ℚ) : List ℚ :=
  (List.range ((data.getD 0 []).getD 0 []).length).map fun t =>
    clampOpt amin amax (kernel xs ys data tx ty t)

/-- Modelled from the spec: `interpolate_geospatial` — reject a target outside
`[min xs, max xs] × [min ys, max ys]` with a domain error; otherwise normalize
both axes to ascending order and evaluate the method's kernel once per time
slice, clamping into `[a_min, a_max]` when supplied. -/
def interpolateWith (kernel : Kernel) (tx ty : ℚ) (xs ys : List ℚ)
    (data : GridData) (amin amax : Option ℚ) : Except InterpErr (List ℚ) :=
  if inAxisDomain tx xs && inAxisDomain ty ys then
    .ok (interpCore kernel tx ty (normalizeX xs data).1
      (normalizeY ys (normalizeX xs data).2).1
      (normalizeY ys (normalizeX xs data).2).2 amin amax)
  else .error (.domainError domainMsg)

/-- Nearest-index scan: the index of the closest coordinate, earliest wins on
ties. -/
def nearestGo (t : ℚ) : List ℚ → Nat → Nat → ℚ → Nat
  | [], _, bi, _ => bi
  | a :: rest, i, bi, bd =>
    if abs (a - t) < bd then nearestGo t rest (i + 1) i (abs (a - t))
    else nearestGo t rest (i + 1) bi bd

/-- The index in `l` of the coordinate nearest to `t`. -/
def nearestIndex (t : ℚ) : List ℚ → Nat
  | [] => 0
  | a :: rest => nearestGo t rest 1 0 (abs (a - t))

/-- Modelled from the spec: the nearest-neighbor method returns the value
stored at the grid node closest to the target. -/
def nearestKernel : Kernel := fun xs ys data tx ty t =>
  ((data.getD (nearestIndex tx xs) []).getD (nearestIndex ty ys) []).getD t 0

instance : Std.Antisymm (fun x1 x2 : ℚ => x1 ≤ x2) :=
  ⟨fun h1 h2 => le_antisymm h1 h2⟩

lemma mem_le_of_min? {l : List ℚ} {m : ℚ} (h : l.min? = some m) :
    ∀ a ∈ l, m ≤ a :=
  ((List.min?_eq_some_iff (fun a => le_refl a) (fun a b => min_choice a b)
    (fun _ _ _ => le_min_iff)).mp h).2

lemma mem_ge_of_max? {l : List ℚ} {m : ℚ} (h : l.max? = some m) :
    ∀ a ∈ l, a ≤ m :=
  ((List.max?_eq_some_iff (fun a => le_refl a) (fun a b => max_choice a b)
    (fun _ _ _ => max_le_iff)).mp h).2

lemma inAxisDomain_false_low {l : List ℚ} {m t : ℚ} (h : l.min? = some m)
    (ht : t < m) : inAxisDomain t l = false := by
  have hall := mem_le_of_min? h
  have h1 : (l.any fun a => decide (a ≤ t)) = false := by
    simp only [List.any_eq_false, decide_eq_true_eq]
    intro a ha
    have := hall a ha
    intro hc
    linarith
  rw [inAxisDomain, h1, Bool.false_and]

lemma inAxisDomain_false_high {l : List ℚ} {m t : ℚ} (h : l.max? = some m)
    (ht : m < t) : inAxisDomain t l = false := by
  have hall := mem_ge_of_max? h
  have h2 : (l.any fun a => decide (t ≤ a)) = false := by
    simp only [List.any_eq_false, decide_eq_true_eq]
    intro a ha
    have := hall a ha
    intro hc
    linarith
  rw [inAxisDomain, h2, Bool.and_false]

/-- C7: whatever the interpolation method, a target point outside the
rectangle `[min xs, max xs] × [min ys, max ys]` makes the call fail with the
domain error; no interpolated vector is returned. -/
theorem c7_target_outside_domain_fails (kernel : Kernel) (tx ty : ℚ)
    (xs ys : List ℚ) (data : GridData) (amin amax : Option ℚ)
    (mx Mx my My : ℚ)
    (hminx : xs.min? = some mx) (hmaxx : xs.max? = some Mx)
    (hminy : ys.min? = some my) (hmaxy : ys.max? = some My)
    (hout : tx < mx ∨ Mx < tx ∨ ty < my ∨ My < ty) :
    interpolateWith kernel tx ty xs ys data amin amax
      = .error (.domainError domainMsg) := by
  have hfalse : (inAxisDomain tx xs && inAxisDomain ty ys) = false := by
    rcases hout with h | h | h | h
    · rw [inAxisDomain_false_low hminx h, Bool.false_and]
    · rw [inAxisDomain_false_high hmaxx h, Bool.false_and]
    · rw [inAxisDomain_false_low hminy h, Bool.and_false]
    · rw [inAxisDomain_false_high hmaxy h, Bool.and_false]
  simp [interpolateWith, hfalse]

/-- Witness for C7: the target easting `-1` lies left of the `[0, 1]` grid. -/
theorem c7_witness :
    ([0, 1] : List ℚ).min? = some 0 ∧
    ([0, 1] : List ℚ).max? = some 1 ∧
    ((-1 : ℚ) < 0 ∨ (1 : ℚ) < -1 ∨ (0 : ℚ) < 0 ∨ (1 : ℚ) < 0) ∧
    interpolateWith nearestKernel (-1) 0 [0, 1] [0, 1]
        [[[1], [3]], [[2], [4]]] none none
      = .error (.domainError domainMsg) :=
  ⟨by decide, by decide, by decide,
    c7_target_outside_domain_fails nearestKernel (-1) 0
      [0, 1] [0, 1] [[[1], [3]], [[2], [4]]] none none 0 1 0 1
      (by decide) (by decide) (by decide) (by decide) (by decide)⟩

lemma inAxisDomain_reverse (t : ℚ) (l : List ℚ) :
    inAxisDomain t l.reverse = inAxisDomain t l := by
  unfold inAxisDomain
  rw [List.any_reverse, List.any_reverse]

lemma needsFlip_false_of_sorted {l : List ℚ} (h : l.Sorted (· < ·)) :
    needsFlip l = false := by
  cases l with
  | nil => rfl
  | cons a rest =>
    have hne : a :: rest ≠ [] := List.cons_ne_nil a rest
    have hgl : (a :: rest).getLast? = some ((a :: rest).getLast hne) :=
      List.getLast?_eq_getLast _ hne
    have hmem : (a :: rest).getLast hne ∈ a :: rest := List.getLast_mem hne
    have hle : a ≤ (a :: rest).getLast hne := by
      rcases List.mem_cons.mp hmem with heq | hmem'
      · rw [heq]
      · exact le_of_lt ((List.sorted_cons.mp h).1 _ hmem')
    unfold needsFlip
    rw [hgl]
    simp [not_lt.mpr hle]

lemma needsFlip_reverse_true {l : List ℚ} (h : l.Sorted (· < ·))
    (h2 : 2 ≤ l.length) : needsFlip l.reverse = true := by
  cases l with
  | nil => simp at h2
  | cons a rest =>
    cases rest with
    | nil => simp at h2
    | cons b t =>
      have hne : b :: t ≠ [] := List.cons_ne_nil b t
      have hgl : (a :: b :: t).getLast? = some ((b :: t).getLast hne) := by
        rw [List.getLast?_eq_getLast _ (List.cons_ne_nil a (b :: t)),
          List.getLast_cons hne]
      have hmem : (b :: t).getLast hne ∈ b :: t := List.getLast_mem hne
      have hlt : a < (b :: t).getLast hne :=
        (List.sorted_cons.mp h).1 _ hmem
      unfold needsFlip
      rw [List.head?_reverse, List.getLast?_reverse, hgl]
      simp [hlt]

lemma normalizeX_of_sorted {xs : List ℚ} (h : xs.Sorted (· < ·))
    (data : GridData) : normalizeX xs data = (xs, data) := by
  rw [normalizeX, needsFlip_false_of_sorted h]
  simp

lemma normalizeY_of_sorted {ys : List ℚ} (h : ys.Sorted (· < ·))
    (data : GridData) : normalizeY ys data = (ys, data) := by
  rw [normalizeY, needsFlip_false_of_sorted h]
  simp

lemma normalizeX_reverse {xs : List ℚ} (h : xs.Sorted (· < ·))
    (h2 : 2 ≤ xs.length) (data : GridData) :
    normalizeX xs.reverse data.reverse = (xs, data) := by
  rw [normalizeX, needsFlip_reverse_true h h2]
  simp

lemma map_reverse_involutive (data : GridData) :
    (data.map List.reverse).map List.reverse = data := by
  rw [List.map_map]
  simp [Function.comp_def]

lemma normalizeY_reverse {ys : List ℚ} (h : ys.Sorted (· < ·))
    (h2 : 2 ≤ ys.length) (data : GridData) :
    normalizeY ys.reverse (data.map List.reverse) = (ys, data) := by
  rw [normalizeY, needsFlip_reverse_true h h2]
  simp [map_reverse_involutive]

/-- C8: for an in-domain target and any method kernel, reversing the xs axis,
the ys axis, or both (indexing the data consistently with the given axis
order) leaves the interpolation result unchanged. -/
theorem c8_descending_axes_give_same_result (kernel : Kernel) (tx ty : ℚ)
    (xs ys : List ℚ) (data : GridData) (amin amax : Option ℚ)
    (hxs : xs.Sorted (· < ·)) (hys : ys.Sorted (· < ·))
    (hx2 : 2 ≤ xs.length) (hy2 : 2 ≤ ys.length)
    (hdomx : inAxisDomain tx xs = true) (hdomy : inAxisDomain ty ys = true) :
    interpolateWith kernel tx ty xs.reverse ys data.reverse amin amax
      = interpolateWith kernel tx ty xs ys data amin amax ∧
    interpolateWith kernel tx ty xs ys.reverse (data.map List.reverse) amin amax
      = interpolateWith kernel tx ty xs ys data amin amax ∧
    interpolateWith kernel tx ty xs.reverse ys.reverse
        (data.reverse.map List.reverse) amin amax
      = interpolateWith kernel tx ty xs ys data amin amax := by
  refine ⟨?_, ?_, ?_⟩ <;>
  · unfold interpolateWith
    simp only [inAxisDomain_reverse, hdomx, hdomy, List.map_reverse,
      normalizeX_reverse hxs hx2, normalizeX_of_sorted hxs,
      normalizeY_reverse hys hy2, normalizeY_of_sorted hys]

/-- Witness for C8 on the test grid `xs = ys = [0, 1]` with the nearest
kernel at the in-domain target `(0, 1)`. -/
theorem c8_witness :
    ([0, 1] : List ℚ).Sorted (· < ·) ∧
    2 ≤ ([0, 1] : List ℚ).length ∧
    inAxisDomain (0 : ℚ) [0, 1] = true ∧
    inAxisDomain (1 : ℚ) [0, 1] = true ∧
    interpolateWith nearestKernel 0 1
        ([0, 1] : List ℚ).reverse [0, 1]
        ([[[1], [3]], [[2], [4]]] : GridData).reverse none none
      = interpolateWith nearestKernel 0 1 [0, 1] [0, 1]
          [[[1], [3]], [[2], [4]]] none none :=
  ⟨by decide, by decide, by decide, by decide,
    (c8_descending_axes_give_same_result nearestKernel 0 1
      [0, 1] [0, 1] [[[1], [3]], [[2], [4]]] none none (by decide) (by decide)
      (by decide) (by decide) (by decide) (by decide)).1⟩

lemma nearestGo_zero (t : ℚ) : ∀ (l : List ℚ) (i bi : Nat),
    nearestGo t l i bi 0 = bi := by
  intro l
  induction l with
  | nil => intro i bi; rfl
  | cons a rest ih =>
    intro i bi
    simp only [nearestGo]
    rw [if_neg (not_lt.mpr (abs_nonneg _))]
    exact ih _ _

lemma nearestGo_finds (t : ℚ) : ∀ (l : List ℚ) (i bi : Nat) (bd : ℚ),
    0 < bd → ∀ k, k < l.length → l.getD k 0 = t →
    (∀ m, m < l.length → m ≠ k → l.getD m 0 ≠ t) →
    nearestGo t l i bi bd = i + k := by
  intro l
  induction l with
  | nil =>
    intro i bi bd hbd k hk
    exact absurd hk (by simp)
  | cons a rest ih =>
    intro i bi bd hbd k hk hkt huniq
    cases k with
    | zero =>
      have ha : a = t := by simpa using hkt
      simp only [nearestGo]
      rw [ha, sub_self, abs_zero, if_pos hbd, nearestGo_zero]
      omega
    | succ k' =>
      have hane : a ≠ t := by
        have h0 := huniq 0 (by simp) (by simp)
        simpa using h0
      have hd : (0 : ℚ) < abs (a - t) := abs_pos.mpr (sub_ne_zero.mpr hane)
      have hk' : k' < rest.length := by simpa using hk
      have hkt' : rest.getD k' 0 = t := by simpa using hkt
      have huniq' : ∀ m, m < rest.length → m ≠ k' → rest.getD m 0 ≠ t := by
        intro m hm hmk
        have hm1 := huniq (m + 1) (by simpa using Nat.succ_lt_succ hm) (by omega)
        simpa using hm1
      simp only [nearestGo]
      by_cases hlt : abs (a - t) < bd
      · rw [if_pos hlt, ih (i + 1) i _ hd k' hk' hkt' huniq']
        omega
      · rw [if_neg hlt, ih (i + 1) bi bd hbd k' hk' hkt' huniq']
        omega

lemma nearestIndex_exact (t : ℚ) (l : List ℚ) (i : Nat) (hi : i < l.length)
    (ht : l.getD i 0 = t)
    (huniq : ∀ m, m < l.length → m ≠ i → l.getD m 0 ≠ t) :
    nearestIndex t l = i := by
  cases l with
  | nil => simp at hi
  | cons a rest =>
    cases i with
    | zero =>
      have ha : a = t := by simpa using ht
      simp only [nearestIndex]
      rw [ha, sub_self, abs_zero, nearestGo_zero]
    | succ i' =>
      have hane : a ≠ t := by
        have h0 := huniq 0 (by simp) (by simp)
        simpa using h0
      have hd : (0 : ℚ) < abs (a - t) := abs_pos.mpr (sub_ne_zero.mpr hane)
      have hi' : i' < rest.length := by simpa using hi
      have ht' : rest.getD i' 0 = t := by simpa using ht
      have huniq' : ∀ m, m < rest.length → m ≠ i' → rest.getD m 0 ≠ t := by
        intro m hm hmk
        have hm1 := huniq (m + 1) (by simpa using Nat.succ_lt_succ hm) (by omega)
        simpa using hm1
      simp only [nearestIndex]
      rw [nearestGo_finds t rest 1 0 _ hd i' hi' ht' huniq']
      omega

lemma sorted_getD_uniq {l : List ℚ} (h : l.Sorted (· < ·)) {i : Nat}
    (hi : i < l.length) :
    ∀ m, m < l.length → m ≠ i → l.getD m 0 ≠ l.getD i 0 := by
  intro m hm hmi
  have hnd : l.Nodup := h.nodup
  rw [List.getD_eq_get?, List.getD_eq_get?, List.get?_eq_get hm,
    List.get?_eq_get hi, Option.getD_some, Option.getD_some]
  intro heq
  exact hmi (congrArg Fin.val (List.nodup_iff_injective_get.mp hnd heq))

lemma getD_mem_of_lt {l : List ℚ} {n : Nat} (h : n < l.length) :
    l.getD n 0 ∈ l := by
  rw [List.getD_eq_get?, List.get?_eq_get h, Option.getD_some]
  exact List.get_mem l n h

/-- C10: a target that coincides exactly with a grid node makes
nearest-neighbor interpolation return, for every time slice, exactly the
value stored at that node. -/
theorem c10_nearest_exact_at_grid_node (xs ys : List ℚ) (data : GridData)
    (i j : Nat) (tx ty : ℚ)
    (hxs : xs.Sorted (· < ·)) (hys : ys.Sorted (· < ·))
    (hi : i < xs.length) (hj : j < ys.length)
    (htx : xs.getD i 0 = tx) (hty : ys.getD j 0 = ty) :
    interpolateWith nearestKernel tx ty xs ys data none none
      = .ok ((List.range ((data.getD 0 []).getD 0 []).length).map fun t =>
          ((data.getD i []).getD j []).getD t 0) := by
  have htxm : tx ∈ xs := htx ▸ getD_mem_of_lt hi
  have htym : ty ∈ ys := hty ▸ getD_mem_of_lt hj
  have hdx : inAxisDomain tx xs = true := by
    unfold inAxisDomain
    rw [Bool.and_eq_true, List.any_eq_true, List.any_eq_true]
    exact ⟨⟨tx, htxm, by simp⟩, ⟨tx, htxm, by simp⟩⟩
  have hdy : inAxisDomain ty ys = true := by
    unfold inAxisDomain
    rw [Bool.and_eq_true, List.any_eq_true, List.any_eq_true]
    exact ⟨⟨ty, htym, by simp⟩, ⟨ty, htym, by simp⟩⟩
  have hnx : nearestIndex tx xs = i :=
    nearestIndex_exact tx xs i hi htx (htx ▸ sorted_getD_uniq hxs hi)
  have hny : nearestIndex ty ys = j :=
    nearestIndex_exact ty ys j hj hty (hty ▸ sorted_getD_uniq hys hj)
  unfold interpolateWith
  rw [hdx, hdy]
  simp only [Bool.and_self, if_true]
  simp only [normalizeX_of_sorted hxs, normalizeY_of_sorted hys]
  congr 1
  unfold interpCore
  have hfun : (fun t => clampOpt none none (nearestKernel xs ys data tx ty t))
      = fun t => ((data.getD i []).getD j []).getD t 0 := by
    funext t
    unfold clampOpt nearestKernel
    rw [hnx, hny]
  rw [hfun]

/-- Witness for C10 on the test grid of `test_nearest_exact_match`: target
`(1, 0)` is the node `(i, j) = (1, 0)` holding value `3`. -/
theorem c10_witness :
    ([0, 1] : List ℚ).Sorted (· < ·) ∧
    1 < ([0, 1] : List ℚ).length ∧ 0 < ([0, 1] : List ℚ).length ∧
    ([0, 1] : List ℚ).getD 1 0 = 1 ∧ ([0, 1] : List ℚ).getD 0 0 = 0 ∧
    interpolateWith nearestKernel 1 0 [0, 1] [0, 1]
        ([[[1], [2]], [[3], [4]]] : GridData) none none
      = .ok ((List.range ((([[[1], [2]], [[3], [4]]] : GridData).getD 0 []).getD 0 []).length).map
          fun t => ((([[[1], [2]], [[3], [4]]] : GridData).getD 1 []).getD 0 []).getD t 0) :=
  ⟨by decide, by decide, by decide, by decide, by decide,
    c10_nearest_exact_at_grid_node [0, 1] [0, 1] [[[1], [2]], [[3], [4]]]
      1 0 1 0 (by decide) (by decide) (by decide) (by decide) (by decide)
      (by decide)⟩

end Wepppyo3
